import Mathlib

set_option maxHeartbeats 1000000

/-!
Shallow embedding of the editing-session engine of the code4fun sandbox
(`src/components/EditorTabs.tsx` and `src/components/SearchPanel.tsx`),
together with a verification of the frozen specification claims.

Buffer names follow the source (`html` / `css` / `js`); the specification
calls the same three buffers markup / style / script.
-/

namespace LiteLab

/-- Snapshot of the three coupled buffers: `HistoryState` in `EditorTabs.tsx`
(spec: the Snapshot Model, markup / style / script). -/
structure Snap where
  html : String
  css : String
  js : String
  deriving DecidableEq, Repr, Inhabited

/-- The empty snapshot triple. -/
def emptySnap : Snap := ⟨"", "", ""⟩

/-- Editor tab identifiers: `TabKey` in the source (`html` / `css` / `js`). -/
inductive TabKey where
  | html
  | css
  | js
  deriving DecidableEq, Repr

/-- State of the History Engine plus the current buffers: the refs
`undoStack`, `redoStack` and the current `html`/`css`/`js` values held in
`latestRef` in `EditorTabs.tsx`.  The stacks store their top at the END of
the list, mirroring the JavaScript `push`/`pop` on arrays. -/
structure EditorState where
  undoStack : List Snap
  redoStack : List Snap
  bufs : Snap
  deriving DecidableEq, Repr

/-- History capacity: `HISTORY_LIMIT = 60` in the source. -/
def HISTORY_LIMIT : Nat := 60

/-- The source function `pushHistorySnapshot(s, replaceLatest)`:
if `replaceLatest` and the undo stack is non-empty, overwrite the top entry;
otherwise push and, when the stack exceeds `HISTORY_LIMIT`, `shift()` the
oldest entry away.  Both paths clear the redo stack. -/
def pushHistorySnapshot (st : EditorState) (s : Snap) (replaceLatest : Bool) :
    EditorState :=
  if replaceLatest = true ∧ 0 < st.undoStack.length then
    { st with undoStack := st.undoStack.dropLast ++ [s], redoStack := [] }
  else
    let u := st.undoStack ++ [s]
    { st with undoStack := if HISTORY_LIMIT < u.length then u.drop 1 else u,
              redoStack := [] }

/-- The source function `undo()`: a no-op when the undo stack has one or
fewer entries; otherwise pop the top onto the redo stack and apply the new
top (`applyHistoryState(prev)`) as the current buffer contents. -/
def undo (st : EditorState) : EditorState :=
  if st.undoStack.length ≤ 1 then st
  else
    { undoStack := st.undoStack.dropLast,
      redoStack := st.redoStack ++ [st.undoStack.getLastD emptySnap],
      bufs := st.undoStack.dropLast.getLastD emptySnap }

/-- The source function `redo()`: a no-op when the redo stack is empty;
otherwise pop its top, push it back onto the undo stack, and apply it. -/
def redo (st : EditorState) : EditorState :=
  match st.redoStack.getLast? with
  | none => st
  | some top =>
      { undoStack := st.undoStack ++ [top],
        redoStack := st.redoStack.dropLast,
        bufs := top }

/-- Update one buffer of a snapshot (the `setHtml`/`setCss`/`setJs` +
`latestRef.current` update performed by each textarea `onChange`). -/
def setBuf (s : Snap) (tab : TabKey) (v : String) : Snap :=
  match tab with
  | .html => { s with html := v }
  | .css => { s with css := v }
  | .js => { s with js := v }

/-- One keystroke in a textarea, from the `onChange` handlers in
`EditorTabs.tsx`: the buffer is always updated, and — unless an IME
composition is in progress — `scheduleChangeAndValidate` runs, which calls
`pushHistorySnapshot` immediately (the parent update and validation it also
schedules are debounced, but the history push is not).  Note the pushed
VALUE: the handler first writes the new text into `latestRef`, but
`scheduleChangeAndValidate` then resets the whole ref from the render-scope
React state (`latestRef.current = { html, css, js }`), which inside the
same event still holds the PRE-keystroke values because the `set` calls are
asynchronous; the snapshot pushed is therefore the state as of the previous
render, `st.bufs`, not the post-keystroke text (the ref itself is re-synced
to the committed state by the effect on `[html, css, js]` before the next
event). -/
def onEditKeystroke (st : EditorState) (tab : TabKey) (v : String)
    (composing : Bool) : EditorState :=
  if composing then { st with bufs := setBuf st.bufs tab v }
  else pushHistorySnapshot { st with bufs := setBuf st.bufs tab v }
    st.bufs false

/-- Session start: the mount effect pushes the initial snapshot with
`replaceLatest = true` onto the (empty) history. -/
def initialEditorState (s0 : Snap) : EditorState :=
  pushHistorySnapshot { undoStack := [], redoStack := [], bufs := s0 } s0 true

theorem initialEditorState_undoStack (s0 : Snap) :
    (initialEditorState s0).undoStack = [s0] := by
  simp [initialEditorState, pushHistorySnapshot, HISTORY_LIMIT]

/-- Claim C1: when the undo stack has at least two entries, `undo` followed
by `redo` restores exactly the pre-undo state — the snapshot that was on
top before the undo becomes the current buffers again and both stack
contents are exactly as before; when the undo stack has one or fewer
entries, `undo` is a no-op that changes nothing. -/
theorem c1_undo_redo_inverse (st : EditorState) :
    (2 ≤ st.undoStack.length →
      redo (undo st) = { st with bufs := st.undoStack.getLastD emptySnap }) ∧
    (st.undoStack.length ≤ 1 → undo st = st) := by
  constructor
  · intro h
    have hne : st.undoStack ≠ [] := by
      intro h0
      rw [h0] at h
      simp at h
    have hlt : ¬ st.undoStack.length ≤ 1 := by omega
    have hlast : st.undoStack.dropLast ++ [st.undoStack.getLastD emptySnap] =
        st.undoStack := by
      rw [List.getLastD_eq_getLast?, List.getLast?_eq_getLast _ hne]
      exact List.dropLast_concat_getLast hne
    unfold undo
    rw [if_neg hlt]
    unfold redo
    simp only [List.getLast?_concat, List.dropLast_concat]
    rw [hlast]
  · intro h
    unfold undo
    rw [if_pos h]

theorem pushHistorySnapshot_false_undoStack (st : EditorState) (s : Snap) :
    (pushHistorySnapshot st s false).undoStack =
      if HISTORY_LIMIT < st.undoStack.length + 1 then (st.undoStack ++ [s]).drop 1
      else st.undoStack ++ [s] := by
  unfold pushHistorySnapshot
  rw [if_neg (by simp)]
  simp [List.length_append]

theorem pushHistorySnapshot_false_redoStack (st : EditorState) (s : Snap) :
    (pushHistorySnapshot st s false).redoStack = [] := by
  unfold pushHistorySnapshot
  rw [if_neg (by simp)]

theorem pushHistorySnapshot_false_getLast (st : EditorState) (s : Snap) :
    (pushHistorySnapshot st s false).undoStack.getLastD emptySnap = s := by
  rw [pushHistorySnapshot_false_undoStack]
  split
  · rename_i hlen
    have h60 : (60 : Nat) < st.undoStack.length + 1 := hlen
    rw [List.drop_append_of_le_length (by omega), List.getLastD_concat]
  · rw [List.getLastD_concat]

theorem c1_undo_redo_inverse_witness :
    (redo (undo ⟨[⟨"a", "", ""⟩, ⟨"b", "", ""⟩], [], ⟨"b", "", ""⟩⟩) =
      ⟨[⟨"a", "", ""⟩, ⟨"b", "", ""⟩], [], ⟨"b", "", ""⟩⟩) ∧
    undo ⟨[⟨"a", "", ""⟩], [], ⟨"a", "", ""⟩⟩ = ⟨[⟨"a", "", ""⟩], [], ⟨"a", "", ""⟩⟩ :=
  ⟨(c1_undo_redo_inverse ⟨[⟨"a", "", ""⟩, ⟨"b", "", ""⟩], [], ⟨"b", "", ""⟩⟩).1 (by decide),
   (c1_undo_redo_inverse ⟨[⟨"a", "", ""⟩], [], ⟨"a", "", ""⟩⟩).2 (by decide)⟩

theorem pushHistorySnapshot_length_le (st : EditorState) (s : Snap) (b : Bool)
    (h : st.undoStack.length ≤ HISTORY_LIMIT) :
    (pushHistorySnapshot st s b).undoStack.length ≤ HISTORY_LIMIT := by
  unfold pushHistorySnapshot
  split
  · rename_i hc
    obtain ⟨-, hpos⟩ := hc
    simp only [List.length_append, List.length_dropLast, List.length_singleton]
    omega
  · simp only
    split
    · rename_i hlen
      simp only [List.length_append, List.length_singleton] at hlen
      simp only [List.length_drop, List.length_append, List.length_singleton]
      omega
    · rename_i hlen
      simp only [List.length_append, List.length_singleton] at hlen
      simp only [List.length_append, List.length_singleton]
      omega

theorem foldl_push_length_le (ops : List (Snap × Bool)) (start : EditorState)
    (h : start.undoStack.length ≤ HISTORY_LIMIT) :
    (ops.foldl (fun st p => pushHistorySnapshot st p.1 p.2) start).undoStack.length
      ≤ HISTORY_LIMIT := by
  induction ops generalizing start with
  | nil => exact h
  | cons p rest ih =>
      exact ih _ (pushHistorySnapshot_length_le start p.1 p.2 h)

/-- Claim C3: for every sequence of record operations starting from the
initial session state, the undo stack never exceeds 60 snapshots; and a
(non-replacing) push onto a full stack of 60 drops the oldest entry,
retaining the 60 most recent snapshots in order. -/
theorem c3_capacity_bound :
    (∀ (s0 : Snap) (ops : List (Snap × Bool)),
      (ops.foldl (fun st p => pushHistorySnapshot st p.1 p.2)
        (initialEditorState s0)).undoStack.length ≤ HISTORY_LIMIT) ∧
    (∀ (st : EditorState) (s : Snap), st.undoStack.length = HISTORY_LIMIT →
      (pushHistorySnapshot st s false).undoStack = st.undoStack.drop 1 ++ [s]) := by
  constructor
  · intro s0 ops
    apply foldl_push_length_le
    rw [initialEditorState_undoStack]
    simp [HISTORY_LIMIT]
  · intro st s h
    have h60 : st.undoStack.length = 60 := by
      simpa [HISTORY_LIMIT] using h
    rw [pushHistorySnapshot_false_undoStack]
    rw [if_pos (by simp [HISTORY_LIMIT, h60])]
    exact List.drop_append_of_le_length (by omega)

theorem c3_capacity_bound_witness :
    (([(⟨"a", "", ""⟩, false)] : List (Snap × Bool)).foldl
      (fun st p => pushHistorySnapshot st p.1 p.2)
      (initialEditorState ⟨"", "", ""⟩)).undoStack.length ≤ HISTORY_LIMIT ∧
    (pushHistorySnapshot
        ⟨(List.range 60).map (fun i => ⟨toString i, "", ""⟩), [], emptySnap⟩
        ⟨"x", "", ""⟩ false).undoStack =
      ((List.range 60).map (fun i => (⟨toString i, "", ""⟩ : Snap))).drop 1 ++
        [⟨"x", "", ""⟩] :=
  ⟨c3_capacity_bound.1 ⟨"", "", ""⟩ [(⟨"a", "", ""⟩, false)],
   c3_capacity_bound.2 _ _ (by simp [HISTORY_LIMIT])⟩

/-- Claim C2 counterexample: a burst of two rapid keystrokes (no IME
composition) starting from a fresh session leaves THREE entries on the undo
stack — one per keystroke — not the single new entry (two entries total)
that per-pause coalescing would produce.  In the source,
`scheduleChangeAndValidate` calls `pushHistorySnapshot` synchronously on
every change; only the parent update and validation are debounced.  Each
push stores the stale render-scope snapshot (the state BEFORE that
keystroke), so after typing "h" then "he" the stack holds the initial
snapshot twice and then the pre-second-keystroke text "h". -/
theorem c2_burst_counterexample :
    (onEditKeystroke
        (onEditKeystroke (initialEditorState ⟨"", "", ""⟩) TabKey.html "h" false)
        TabKey.html "he" false).undoStack =
      [⟨"", "", ""⟩, ⟨"", "", ""⟩, ⟨"h", "", ""⟩] ∧
    ¬ (onEditKeystroke
        (onEditKeystroke (initialEditorState ⟨"", "", ""⟩) TabKey.html "h" false)
        TabKey.html "he" false).undoStack.length = 2 := by
  constructor
  · decide
  · decide

/-- Claim C2 (amended): every keystroke outside IME composition records one
history entry immediately (clearing the redo stack), so a burst of n rapid
keystrokes produces n new undo entries — subject only to the capacity cap —
rather than collapsing to a single entry per pause; the entry recorded is
the stale render-scope snapshot, i.e. the state BEFORE that keystroke
(history lags one keystroke); keystrokes during composition record
nothing. -/
theorem c2_record_per_keystroke (st : EditorState) (tab : TabKey) (v : String) :
    ((onEditKeystroke st tab v false).undoStack.length =
      if HISTORY_LIMIT < st.undoStack.length + 1 then st.undoStack.length
      else st.undoStack.length + 1) ∧
    (onEditKeystroke st tab v false).undoStack.getLastD emptySnap = st.bufs ∧
    (onEditKeystroke st tab v false).redoStack = [] ∧
    (onEditKeystroke st tab v true).undoStack = st.undoStack ∧
    (onEditKeystroke st tab v true).redoStack = st.redoStack := by
  have hfalse : onEditKeystroke st tab v false =
      pushHistorySnapshot { st with bufs := setBuf st.bufs tab v }
        st.bufs false := by
    unfold onEditKeystroke
    rw [if_neg (by simp)]
  have htrue : onEditKeystroke st tab v true =
      { st with bufs := setBuf st.bufs tab v } := by
    unfold onEditKeystroke
    rw [if_pos rfl]
  refine ⟨?_, ?_, ?_, ?_, ?_⟩
  · rw [hfalse, pushHistorySnapshot_false_undoStack]
    split
    · simp
    · simp
  · rw [hfalse, pushHistorySnapshot_false_getLast]
  · rw [hfalse, pushHistorySnapshot_false_redoStack]
  · rw [htrue]
  · rw [htrue]

/-- State of the Propagation Channel: the debounced `flushOnChange` path in
`EditorTabs.tsx`.  `latest` models `latestRef.current` (the always-current
holder the timer callback re-reads), `pendingAt` the single armed
`setTimeout` deadline (`onChangeTimer`), and `delivered` the sequence of
calls made to the external sink (`onChange`). -/
structure PropState where
  latest : Snap
  pendingAt : Option Nat
  delivered : List Snap
  deriving DecidableEq, Repr

/-- Let an armed timer whose deadline has been reached fire: the callback
delivers the current value of `latestRef` to the sink and clears the timer. -/
def firePending (st : PropState) (now : Nat) : PropState :=
  match st.pendingAt with
  | some d =>
      if d ≤ now then
        { st with delivered := st.delivered ++ [st.latest], pendingAt := none }
      else st
  | none => st

/-- Model of a `flushOnChange(false)` call at time `now` with the latest
snapshot `s`: any already-due timer has fired first, a still-pending timer
is cleared (`clearTimeout`) by overwriting it, and a new timer is armed 400
time units out.  The 400 matches the source debounce constant. -/
def scheduleProp (st : PropState) (now : Nat) (s : Snap) : PropState :=
  let st1 := firePending st now
  { st1 with latest := s, pendingAt := some (now + 400) }

/-- Let any remaining timer elapse at the end of the timeline: it delivers
the latest snapshot. -/
def drainProp (st : PropState) : PropState :=
  match st.pendingAt with
  | some _ => { st with delivered := st.delivered ++ [st.latest], pendingAt := none }
  | none => st

/-- The idle propagation channel at session start. -/
def initPropState : PropState := ⟨emptySnap, none, []⟩

/-- Claim C4: `schedule(A)` followed by `schedule(B)` before the 400-unit
debounce window elapses delivers exactly one call to the sink, carrying `B`
(the latest value at fire time); `A` is never delivered. -/
theorem c4_debounce_delivers_latest (A B : Snap) (t1 t2 : Nat)
    (h1 : t1 ≤ t2) (h2 : t2 < t1 + 400) :
    (drainProp (scheduleProp (scheduleProp initPropState t1 A) t2 B)).delivered = [B] ∧
    (A ≠ B →
      A ∉ (drainProp (scheduleProp (scheduleProp initPropState t1 A) t2 B)).delivered) := by
  have hnf : ¬ (t1 + 400 ≤ t2) := by omega
  have hd : (drainProp (scheduleProp (scheduleProp initPropState t1 A) t2 B)).delivered
      = [B] := by
    simp [initPropState, scheduleProp, firePending, drainProp, hnf]
  refine ⟨hd, fun hab => ?_⟩
  rw [hd]
  simp only [List.mem_singleton]
  exact hab

theorem c4_debounce_delivers_latest_witness :
    (drainProp (scheduleProp (scheduleProp initPropState 0 ⟨"a", "", ""⟩) 100
      ⟨"b", "", ""⟩)).delivered = [⟨"b", "", ""⟩] ∧
    (⟨"a", "", ""⟩ : Snap) ∉ (drainProp (scheduleProp
      (scheduleProp initPropState 0 ⟨"a", "", ""⟩) 100 ⟨"b", "", ""⟩)).delivered :=
  ⟨(c4_debounce_delivers_latest ⟨"a", "", ""⟩ ⟨"b", "", ""⟩ 0 100 (by decide)
      (by decide)).1,
   (c4_debounce_delivers_latest ⟨"a", "", ""⟩ ⟨"b", "", ""⟩ 0 100 (by decide)
      (by decide)).2 (by decide)⟩

/-- Snippet kinds, `SnipKind` in the source (`html`/`css`/`js`/`all`; the
spec calls them markup/style/script/all). -/
inductive SnipKind where
  | html
  | css
  | js
  | all
  deriving DecidableEq, Repr

/-- A snippet record, `Snip` in the source. -/
structure Snip where
  id : Option String
  label : String
  snippet : String
  kind : SnipKind
  description : Option String
  tags : List String
  deriving DecidableEq, Repr

/-- The source function `toggleFav(s)`: remove the snippet (matched by body)
if it is already a favorite, otherwise prepend it with a fresh id and cap
the list at 30 (`.slice(0, 30)`). -/
def toggleFav (favs : List Snip) (s : Snip) (newId : String) : List Snip :=
  if favs.any (fun f => f.snippet == s.snippet) then
    favs.filter fun f => f.snippet != s.snippet
  else ({ s with id := some newId } :: favs).take 30

/-- The assistant-panel Insert button in the source runs
`saveFavs([assistResult, ...favs])`: the generated snippet is prepended to
the favorites with NO capacity slice and no body deduplication. -/
def assistantInsertSave (favs : List Snip) (assistResult : Snip) : List Snip :=
  assistResult :: favs

/-- A simple distinct favorite used to build a full favorites list. -/
def mkFav (n : Nat) : Snip := ⟨none, toString n, toString n, SnipKind.css, none, []⟩

/-- Claim C8 evaluation at the failing input: with the favorites set already
at its capacity of 30, inserting an assistant-generated snippet (which also
saves it as a favorite) leaves 31 entries — the capacity bound is violated
because the assistant save path omits the `.slice(0, 30)` cap that
`toggleFav` applies. -/
theorem c8_favorites_cap_violation :
    ((List.range 30).map mkFav).length = 30 ∧
    (assistantInsertSave ((List.range 30).map mkFav)
      ⟨none, "gen", "gen", SnipKind.html, none, []⟩).length = 31 ∧
    30 < (assistantInsertSave ((List.range 30).map mkFav)
      ⟨none, "gen", "gen", SnipKind.html, none, []⟩).length := by
  refine ⟨?_, ?_, ?_⟩ <;> simp [assistantInsertSave]

/-- The displayed state of the question-search panel, from `SearchPanel.tsx`:
`results`, `loading` and `cacheHit` React state. -/
structure SearchUIState (α : Type) where
  results : List α
  loading : Bool
  cacheHit : Bool
  deriving DecidableEq, Repr

/-- The continuation `doSearch` runs when its awaited network response
resolves: `setResults(data.items || []); setCacheHit(false)` and, in the
`finally` block, `setLoading(false)`.  There is no request identifier or
staleness check of any kind: whichever response resolves simply overwrites
the displayed results. -/
def resolveNetworkSearch {α : Type} (st : SearchUIState α) (items : List α) :
    SearchUIState α :=
  { st with results := items, cacheHit := false, loading := false }

/-- Apply a sequence of network-response resolutions in arrival order. -/
def runResolutions {α : Type} (st : SearchUIState α) (responses : List (List α)) :
    SearchUIState α :=
  responses.foldl resolveNetworkSearch st

/-- Claim C9 evaluation at the failing input: two overlapping searches where
the response of the NEWER request (items `[2]`) arrives first and the OLDER,
stale response (items `[1]`) arrives second.  The code leaves the items of
the older request on screen — the stale response overwrites the newer
results, because `doSearch` has no request-ordering protection. -/
theorem c9_stale_response_overwrites :
    (runResolutions (⟨[], false, false⟩ : SearchUIState Nat) [[2], [1]]).results = [1] ∧
    ([1] : List Nat) ≠ [2] := by
  decide

/-- View a tab key as the snippet kind it compares equal to (the source
compares the `activeTab` string directly against `Snip.kind`). -/
def tabAsKind : TabKey → SnipKind
  | .html => .html
  | .css => .css
  | .js => .js

/-- JavaScript `s.startsWith(p)` on our string model. -/
def strStartsWith (s p : String) : Bool := p.data.isPrefixOf s.data

/-- JavaScript `hay.includes(ndl)` (substring containment) on char lists. -/
def containsSub (ndl : List Char) : List Char → Bool
  | [] => ndl.isEmpty
  | c :: cs => ndl.isPrefixOf (c :: cs) || containsSub ndl cs

theorem containsSub_nil (l : List Char) : containsSub [] l = true := by
  cases l <;> simp [containsSub]

/-- The searchable haystack of a snippet, from `getFilteredSnippets`:
`(label + " " + (description || "") + " " + body + " " + tags.join(" ")).toLowerCase()`. -/
def hayOf (s : Snip) : String :=
  (s.label ++ " " ++ s.description.getD "" ++ " " ++ s.snippet ++ " " ++
    String.intercalate " " s.tags).toLower

/-- The score computed for each pool entry by `getFilteredSnippets` in the
source: `+50` kind match, `+30` kind `all`, `+10` already favorited and,
only when the (trimmed, lower-cased) query is non-empty, `+20` when the
lower-cased label starts with it and `+10` when the haystack contains it. -/
def snipScore (favs : List Snip) (tab : TabKey) (q : String) (s : Snip) : Nat :=
  (if s.kind = tabAsKind tab then 50 else 0) +
  (if s.kind = SnipKind.all then 30 else 0) +
  (if favs.any (fun f => f.snippet == s.snippet) then 10 else 0) +
  (if q = "" then 0
   else
     (if strStartsWith s.label.toLower q then 20 else 0) +
     (if containsSub q.data (hayOf s).data then 10 else 0))

/-- The scoring formula exactly as the specification claim states it: 50
for a kind match, +30 for kind `all`, +10 if favorited, +20 if the label
starts with the lower-cased query and +10 if label+description+body+tags
contains the query (both text comparisons lower-cased, as the query is). -/
def snipScoreSpec (favs : List Snip) (tab : TabKey) (q : String) (s : Snip) : Nat :=
  (if s.kind = tabAsKind tab then 50 else 0) +
  (if s.kind = SnipKind.all then 30 else 0) +
  (if favs.any (fun f => f.snippet == s.snippet) then 10 else 0) +
  (if strStartsWith s.label.toLower q then 20 else 0) +
  (if containsSub q.data (hayOf s).data then 10 else 0)

/-- Insert an entry into a score-descending list, after every entry of
greater-or-equal score: together with `sortByScoreDesc` this is the unique
stable descending sort, the behavior of the JavaScript stable
`sort((a, b) => b.score - a.score)`. -/
def insertDesc (x : Snip × Nat) : List (Snip × Nat) → List (Snip × Nat)
  | [] => [x]
  | y :: ys => if y.2 ≤ x.2 then x :: y :: ys else y :: insertDesc x ys

/-- Stable sort by score, descending; ties keep the original order. -/
def sortByScoreDesc : List (Snip × Nat) → List (Snip × Nat)
  | [] => []
  | x :: xs => insertDesc x (sortByScoreDesc xs)

/-- Deduplicate by snippet body keeping the first occurrence (the
`seen`-set filter at the end of `getFilteredSnippets`). -/
def dedupeBySnippet : List Snip → List String → List Snip
  | [], _ => []
  | s :: rest, seen =>
      if s.snippet ∈ seen then dedupeBySnippet rest seen
      else s :: dedupeBySnippet rest (s.snippet :: seen)

/-- The trimmed, lower-cased query: `query.trim().toLowerCase()`. -/
def queryKey (query : String) : String := query.trim.toLower

/-- The source function `getFilteredSnippets()`: score the pool
(catalogue entries before favorites), filter (`!q || score > 5`), sort
descending by score (stable), project the snippets, deduplicate by body. -/
def getFilteredSnippets (catalogue favs : List Snip) (tab : TabKey)
    (query : String) : List Snip :=
  dedupeBySnippet
    ((sortByScoreDesc
        (((catalogue ++ favs).map fun s =>
            (s, snipScore favs tab (queryKey query) s)).filter fun x =>
          decide (queryKey query = "") || decide (5 < x.2))).map
      fun x => x.1) []

/-- The search result exactly as the specification claim describes it: all
entries pass when the query is empty, otherwise exactly those scoring more
than 5 by the stated formula; sorted descending by score with ties kept in
original pool order (catalogue before favorites); deduplicated by body
keeping the first occurrence. -/
def searchSpec (catalogue favs : List Snip) (tab : TabKey) (query : String) :
    List Snip :=
  dedupeBySnippet
    ((sortByScoreDesc
        (if queryKey query = "" then
          (catalogue ++ favs).map fun s =>
            (s, snipScoreSpec favs tab (queryKey query) s)
        else
          ((catalogue ++ favs).map fun s =>
            (s, snipScoreSpec favs tab (queryKey query) s)).filter fun x =>
            decide (5 < x.2))).map
      fun x => x.1) []

theorem insertDesc_shift (c : Nat) (x : Snip × Nat) (l : List (Snip × Nat)) :
    insertDesc (x.1, x.2 + c) (l.map fun y => (y.1, y.2 + c)) =
      (insertDesc x l).map fun y => (y.1, y.2 + c) := by
  induction l with
  | nil => rfl
  | cons y ys ih =>
      simp only [List.map_cons, insertDesc]
      by_cases h : y.2 ≤ x.2
      · rw [if_pos (Nat.add_le_add_right h c), if_pos h, List.map_cons,
          List.map_cons]
      · rw [if_neg (fun hc => h (Nat.le_of_add_le_add_right hc)), if_neg h,
          List.map_cons, ih]

theorem sortByScoreDesc_shift (c : Nat) (l : List (Snip × Nat)) :
    sortByScoreDesc (l.map fun y => (y.1, y.2 + c)) =
      (sortByScoreDesc l).map fun y => (y.1, y.2 + c) := by
  induction l with
  | nil => rfl
  | cons x xs ih =>
      simp only [List.map_cons, sortByScoreDesc, ih]
      exact insertDesc_shift c x (sortByScoreDesc xs)

theorem snipScoreSpec_empty (favs : List Snip) (tab : TabKey) (s : Snip) :
    snipScoreSpec favs tab "" s = snipScore favs tab "" s + 30 := by
  unfold snipScoreSpec snipScore
  have h1 : strStartsWith s.label.toLower "" = true := by
    unfold strStartsWith
    simp
  have h2 : containsSub ("" : String).data (hayOf s).data = true := by
    have he : ("" : String).data = [] := rfl
    rw [he]
    exact containsSub_nil _
  rw [h1, h2]
  simp only [if_pos rfl, if_true]

theorem snipScoreSpec_nonempty (favs : List Snip) (tab : TabKey) (q : String)
    (s : Snip) (h : q ≠ "") :
    snipScoreSpec favs tab q s = snipScore favs tab q s := by
  unfold snipScoreSpec snipScore
  rw [if_neg h]
  omega

/-- Claim C5: the snippet search returns exactly the entries described by
the specification — scored by the stated formula (with the query and both
text comparisons lower-cased, and the whitespace-trimmed query deciding
emptiness), filtered (all entries on an empty query, score > 5 otherwise),
stably sorted descending by score with ties in original pool order
(catalogue before favorites), and deduplicated by body keeping the first
occurrence.  On an empty query the source skips the two query bonuses while
the literal formula grants both to every entry; the resulting uniform +30
shift cannot change the stable descending order, so the two descriptions
produce identical results. -/
theorem c5_search_matches_spec (catalogue favs : List Snip) (tab : TabKey)
    (query : String) :
    getFilteredSnippets catalogue favs tab query =
      searchSpec catalogue favs tab query := by
  unfold getFilteredSnippets searchSpec
  by_cases hq : queryKey query = ""
  · rw [if_pos hq, hq]
    have hfilter : (((catalogue ++ favs).map fun s =>
        (s, snipScore favs tab "" s)).filter fun x =>
          decide (("" : String) = "") || decide (5 < x.2)) =
        ((catalogue ++ favs).map fun s => (s, snipScore favs tab "" s)) := by
      apply List.filter_eq_self.mpr
      intro a _
      simp
    rw [hfilter]
    have hmap : ((catalogue ++ favs).map fun s => (s, snipScoreSpec favs tab "" s)) =
        (((catalogue ++ favs).map fun s => (s, snipScore favs tab "" s)).map
          fun y => (y.1, y.2 + 30)) := by
      rw [List.map_map]
      apply List.map_congr_left
      intro s _
      simp only [Function.comp]
      rw [snipScoreSpec_empty]
    rw [hmap, sortByScoreDesc_shift, List.map_map]
    congr 1
  · rw [if_neg hq]
    have hsc : ((catalogue ++ favs).map fun s =>
        (s, snipScoreSpec favs tab (queryKey query) s)) =
        ((catalogue ++ favs).map fun s =>
          (s, snipScore favs tab (queryKey query) s)) := by
      apply List.map_congr_left
      intro s _
      rw [snipScoreSpec_nonempty favs tab (queryKey query) s hq]
    rw [hsc]
    have hfe : (fun x : Snip × Nat =>
        decide (queryKey query = "") || decide (5 < x.2)) =
        fun x : Snip × Nat => decide (5 < x.2) := by
      funext x
      simp [hq]
    rw [hfe]

/-- Diagnostic levels, from the `LintMessage` type in the source. -/
inductive LintLevel where
  | error
  | warning
  deriving DecidableEq, Repr

/-- A diagnostic produced by a validator (level + message). -/
structure LintMsg where
  level : LintLevel
  message : String
  deriving DecidableEq, Repr

/-- ASCII uppercase letter, the regex class `[A-Z]`. -/
def isUpperAZ (c : Char) : Bool := decide (65 ≤ c.toNat ∧ c.toNat ≤ 90)

/-- JavaScript regex word character `\w = [A-Za-z0-9_]`, which defines the
word boundaries `\b` of the source regex. -/
def isWordChar (c : Char) : Bool :=
  decide ((65 ≤ c.toNat ∧ c.toNat ≤ 90) ∨ (97 ≤ c.toNat ∧ c.toNat ≤ 122) ∨
    (48 ≤ c.toNat ∧ c.toNat ≤ 57) ∨ c.toNat = 95)

/-- A space character, used as the (never-relevant) default for `getD`. -/
def padChar : Char := Char.ofNat 32

/-- The brace-balance scan of `validateCSS`: `open++` on every opening
brace, `open--` on every closing brace; as soon as the balance drops below
-5 emit the "Unexpected" error and stop scanning; after a full scan emit
the "Missing closing" error when the balance is still positive. -/
def cssBraceErrors : List Char → Int → List LintMsg
  | [], bal =>
      if 0 < bal then [⟨LintLevel.error, "Missing closing \x27\x7d\x27"⟩] else []
  | c :: cs, bal =>
      let bal1 := if c = Char.ofNat 123 then bal + 1 else bal
      let bal2 := if c = Char.ofNat 125 then bal1 - 1 else bal1
      if bal2 < -5 then [⟨LintLevel.error, "Unexpected \x27\x7d\x27"⟩]
      else cssBraceErrors cs bal2

/-- Match of the source regex `\b[A-Z]+\b` starting at index `i` and ending
at index `j` (inclusive): a non-empty run of uppercase letters whose left
and right neighbours, when they exist, are not word characters. -/
def upperWordAt (l : List Char) (i j : Nat) : Bool :=
  decide (i ≤ j) && decide (j < l.length) &&
  ((List.range (j + 1 - i)).all fun d => isUpperAZ (l.getD (i + d) padChar)) &&
  (decide (i = 0) || !isWordChar (l.getD (i - 1) padChar)) &&
  (decide (j + 1 = l.length) || !isWordChar (l.getD (j + 1) padChar))

/-- The test `/\b[A-Z]+\b/.test(str)` of the source: some boundary-delimited
uppercase run exists somewhere in the text. -/
def hasUpperWordTest (l : List Char) : Bool :=
  (List.range l.length).any fun i =>
    (List.range l.length).any fun j => upperWordAt l i j

/-- The case-sensitivity warning text emitted by `validateCSS`. -/
def cssWarningMessage : String :=
  "CSS properties appear uppercase - CSS is case-sensitive for some values"

/-- The source function `validateCSS(str)`: the brace-balance errors
followed by the single uppercase-heuristic warning when the regex
`\b[A-Z]+\b` matches. -/
def validateCSS (str : String) : List LintMsg :=
  cssBraceErrors str.data 0 ++
    (if hasUpperWordTest str.data then [⟨LintLevel.warning, cssWarningMessage⟩]
     else [])

/-- Number of warning-level diagnostics in a list. -/
def warnCount (msgs : List LintMsg) : Nat :=
  (msgs.filter fun m => m.level == LintLevel.warning).length

/-- The property the claim asserts as the warning trigger: a run of two or
more CONSECUTIVE uppercase letters appears somewhere in the text. -/
def hasUpperPair (l : List Char) : Bool :=
  (l.zip l.tail).any fun p => isUpperAZ p.1 && isUpperAZ p.2

/-- A boundary-delimited uppercase run, stated as a proposition: some
non-empty run of uppercase letters whose neighbours (when present) are not
word characters. -/
def IsolatedUpperRun (l : List Char) : Prop :=
  ∃ i j, i ≤ j ∧ j < l.length ∧
    (∀ k, i ≤ k → k ≤ j → isUpperAZ (l.getD k padChar) = true) ∧
    (i = 0 ∨ isWordChar (l.getD (i - 1) padChar) = false) ∧
    (j + 1 = l.length ∨ isWordChar (l.getD (j + 1) padChar) = false)

theorem hasUpperWordTest_iff (l : List Char) :
    hasUpperWordTest l = true ↔ IsolatedUpperRun l := by
  unfold hasUpperWordTest upperWordAt IsolatedUpperRun
  simp only [List.any_eq_true, List.mem_range, Bool.and_eq_true,
    decide_eq_true_eq, List.all_eq_true, Bool.or_eq_true, Bool.not_eq_true']
  constructor
  · rintro ⟨i, hi, j, hj, ⟨⟨⟨⟨hij, hjl⟩, hall⟩, hleft⟩, hright⟩⟩
    refine ⟨i, j, hij, hjl, ?_, hleft, hright⟩
    intro k hk1 hk2
    have := hall (k - i) (by omega)
    have hki : i + (k - i) = k := by omega
    rwa [hki] at this
  · rintro ⟨i, j, hij, hjl, hall, hleft, hright⟩
    refine ⟨i, by omega, j, by omega, ⟨⟨⟨⟨hij, hjl⟩, ?_⟩, hleft⟩, hright⟩⟩
    intro d hd
    exact hall (i + d) (by omega) (by omega)

theorem cssBraceErrors_no_warning (l : List Char) (bal : Int) :
    (cssBraceErrors l bal).filter (fun m => m.level == LintLevel.warning) = [] := by
  induction l generalizing bal with
  | nil =>
      unfold cssBraceErrors
      split <;> rfl
  | cons c cs ih =>
      unfold cssBraceErrors
      simp only
      repeat' split
      all_goals first | rfl | exact ih _

/-- Claim C6 counterexample: the claim is false in both directions.  The
style text consisting of the single letter `A` contains no run of two or
more consecutive uppercase letters, yet the validator emits the
case-sensitivity warning (the regex `\b[A-Z]+\b` matches one isolated
uppercase letter); the text `xAAy` contains a two-letter uppercase run,
yet no warning is emitted (the run sits inside a longer word, so no word
boundary is adjacent to it). -/
theorem c6_uppercase_warning_counterexample :
    (hasUpperPair ("A" : String).data = false ∧ warnCount (validateCSS "A") = 1) ∧
    (hasUpperPair ("xAAy" : String).data = true ∧
      warnCount (validateCSS "xAAy") = 0) := by
  decide

/-- Claim C6 (amended): the validator emits the case-sensitivity warning
(exactly one, and none otherwise) if and only if the text contains a run of
ONE or more uppercase letters delimited by word boundaries — i.e. whose
neighbouring characters, when they exist, are not letters, digits or
underscores.  A single isolated uppercase letter triggers it, and an
uppercase run embedded inside a longer word does not. -/
theorem c6_uppercase_warning_amended (str : String) :
    warnCount (validateCSS str) =
      (if hasUpperWordTest str.data then 1 else 0) ∧
    (hasUpperWordTest str.data = true ↔ IsolatedUpperRun str.data) := by
  constructor
  · unfold validateCSS warnCount
    rw [List.filter_append, List.length_append, cssBraceErrors_no_warning]
    simp only [List.length_nil, Nat.zero_add]
    split
    · rfl
    · rfl
  · exact hasUpperWordTest_iff _

/-- ASCII lower-casing of one character, the effect of the JavaScript
case-insensitive (`i`) regex flag on ASCII input. -/
def charLower (c : Char) : Char :=
  if 65 ≤ c.toNat ∧ c.toNat ≤ 90 then Char.ofNat (c.toNat + 32) else c

/-- Case-insensitive prefix test. -/
def ciPrefixOf (p l : List Char) : Bool :=
  (p.map charLower).isPrefixOf (l.map charLower)

/-- Case-insensitive substring test. -/
def containsSubCI (pat l : List Char) : Bool :=
  containsSub (pat.map charLower) (l.map charLower)

/-- The fixed void-element set of `normalizeSnippetForBeginners`. -/
def voidTags : List String := ["img", "input", "br", "hr", "meta", "link"]

/-- Remove every case-insensitive occurrence of `pat` (non-overlapping,
left to right), the effect of `s.replace(closingRe, "")` with a global
case-insensitive regex.  `fuel` bounds the scan; `length + 1` suffices. -/
def eraseAllCI (fuel : Nat) (pat l : List Char) : List Char :=
  match fuel, l with
  | 0, l => l
  | fuel + 1, l =>
      if pat.isEmpty then l
      else if ciPrefixOf pat l then eraseAllCI fuel pat (l.drop pat.length)
      else
        match l with
        | [] => []
        | c :: cs => c :: eraseAllCI fuel pat cs

/-- Rewrite the first case-insensitive occurrence of an opening tag
(`<` + tag name + any run of non-`>` characters + `>`) into the
self-closing form `<tag attrs />`, the effect of
`s.replace(openRe, ...)` with the non-global regex of the source. -/
def selfCloseFirstCI (fuel : Nat) (t : List Char) (l : List Char) : List Char :=
  match fuel with
  | 0 => l
  | fuel + 1 =>
      if ciPrefixOf (Char.ofNat 60 :: t) l then
        let rest := l.drop (t.length + 1)
        let attrs := rest.takeWhile fun c => c ≠ Char.ofNat 62
        match rest.drop attrs.length with
        | _ :: rest2 =>
            Char.ofNat 60 ::
              (t ++ attrs ++ [Char.ofNat 32, Char.ofNat 47, Char.ofNat 62] ++ rest2)
        | [] =>
            match l with
            | [] => []
            | c :: cs => c :: selfCloseFirstCI fuel t cs
      else
        match l with
        | [] => []
        | c :: cs => c :: selfCloseFirstCI fuel t cs

/-- One iteration of the void-tag loop: drop all matching closing tags
(after the regex test the source performs), then self-close the first
opening tag. -/
def applyVoidTag (s : List Char) (t : String) : List Char :=
  let closing := Char.ofNat 60 :: Char.ofNat 47 :: (t.data ++ [Char.ofNat 62])
  let s1 := if containsSubCI closing s then eraseAllCI (s.length + 1) closing s else s
  selfCloseFirstCI (s1.length + 1) t.data s1

/-- Characters the outermost-tag regex of the source accepts in a tag name
(`[a-z0-9-]` with the case-insensitive flag). -/
def isTagNameChar (c : Char) : Bool :=
  decide ((65 ≤ c.toNat ∧ c.toNat ≤ 90) ∨ (97 ≤ c.toNat ∧ c.toNat ≤ 122) ∨
    (48 ≤ c.toNat ∧ c.toNat ≤ 57) ∨ c.toNat = 45)

/-- ASCII whitespace, the regex class `\s` restricted to ASCII. -/
def isSpaceChar (c : Char) : Bool :=
  decide (c.toNat = 32 ∨ c.toNat = 9 ∨ c.toNat = 10 ∨ c.toNat = 13 ∨
    c.toNat = 12 ∨ c.toNat = 11)

/-- Parse the outermost opening tag: the regex
`^<([a-z0-9-]+)(\s|>)` (case-insensitive), returning the lower-cased tag. -/
def openingTagOf (s : List Char) : Option (List Char) :=
  match s with
  | [] => none
  | c :: rest =>
      if c = Char.ofNat 60 then
        let tag := rest.takeWhile isTagNameChar
        if tag.isEmpty then none
        else
          match rest.drop tag.length with
          | d :: _ =>
              if isSpaceChar d || d = Char.ofNat 62 then some (tag.map charLower)
              else none
          | [] => none
      else none

/-- Test for `</tag>` (case-insensitive) at the end of the text, allowing
trailing whitespace: the source regex `</tag>\s*$`. -/
def endsWithClosingCI (tag : List Char) (s : List Char) : Bool :=
  ciPrefixOf
    (Char.ofNat 60 :: Char.ofNat 47 :: (tag ++ [Char.ofNat 62])).reverse
    (s.reverse.dropWhile isSpaceChar)

/-- Whether the string ends with a newline. -/
def strEndsWithNewline (s : String) : Bool :=
  match s.data.getLast? with
  | some c => c = Char.ofNat 10
  | none => false

/-- The markup branch of `normalizeSnippetForBeginners`: wrap a non-tag
body in an indented generic container; otherwise self-close the void
elements, append a missing closing tag for the outermost non-void element,
and ensure a trailing newline. -/
def normalizeHtmlBody (snippet : String) : String :=
  let s0 := snippet.trim
  if !strStartsWith s0 "<" then
    "<div>\n  " ++ (s0.replace "\n" "\n  ") ++ "\n</div>\n"
  else
    let s1 := voidTags.foldl applyVoidTag s0.data
    let s2 :=
      match openingTagOf s1 with
      | some tag =>
          if voidTags.any (fun t => decide (t.data = tag)) then s1
          else if endsWithClosingCI tag s1 then s1
          else s1 ++ (Char.ofNat 10 :: Char.ofNat 60 :: Char.ofNat 47 ::
            (tag ++ [Char.ofNat 62, Char.ofNat 10]))
      | none => s1
    let str2 := String.mk s2
    str2 ++ (if strEndsWithNewline str2 then "" else "\n")

/-- The source function `normalizeSnippetForBeginners(snippet, kind)`:
identity for every kind other than markup. -/
def normalizeSnippetForBeginners (snippet : String) (kind : SnipKind) : String :=
  if kind ≠ SnipKind.html then snippet else normalizeHtmlBody snippet

/-- A textarea input surface: its rendered text and selection bounds
(`value`, `selectionStart`, `selectionEnd`). -/
structure Surface where
  value : String
  selStart : Option Nat
  selEnd : Option Nat
  deriving DecidableEq, Repr

/-- The editing-session state used by snippet insertion: history + buffers,
the active tab, the three textarea refs (a surface exists only while its
tab is rendered — the source mounts exactly the textarea of the active tab), the
recents list, and the snippet-panel state. -/
structure SessionState where
  editor : EditorState
  activeTab : TabKey
  surfHtml : Option Surface
  surfCss : Option Surface
  surfJs : Option Surface
  recents : List Snip
  showSnippet : Bool
  query : String
  deriving DecidableEq, Repr

/-- The ref for a given tab (`htmlRef` / `cssRef` / `jsRef`). -/
def surfaceFor (st : SessionState) : TabKey → Option Surface
  | .html => st.surfHtml
  | .css => st.surfCss
  | .js => st.surfJs

/-- The tab a snippet kind targets (`all` targets markup). -/
def targetTab : SnipKind → TabKey
  | .html => .html
  | .all => .html
  | .css => .css
  | .js => .js

/-- The source function `insertSnippet(snippet, meta, options)`: resolve
the target kind, switch the active tab, normalize the body, pick the
target surface `area` with fallback to the surface of the (old) active tab
(`finalArea = area || ...`), splice the normalized body into the text of THAT
surface at its selection, store the spliced text into the TARGET buffer, push
a history snapshot, prepend a recents entry (deduplicated by body, capped
at 8), close the panel unless `keepOpen`, and clear the search query. -/
def insertSnippet (st : SessionState) (newId : String) (snippet : String)
    (meta : Option Snip) (keepOpen : Bool) : SessionState :=
  let targetKind := (meta.map Snip.kind).getD (tabAsKind st.activeTab)
  let active1 :=
    if targetKind ≠ tabAsKind st.activeTab ∧ targetKind ≠ SnipKind.all then
      targetTab targetKind
    else if targetKind = SnipKind.all then TabKey.html
    else st.activeTab
  let normalized := normalizeSnippetForBeginners snippet targetKind
  let area := surfaceFor st (targetTab targetKind)
  let finalArea :=
    match area with
    | some a => some a
    | none => surfaceFor st st.activeTab
  match finalArea with
  | none => st
  | some fa =>
      let start := fa.selStart.getD fa.value.length
      let stop := fa.selEnd.getD start
      let newVal := fa.value.take start ++ normalized ++ fa.value.drop stop
      let bufs1 :=
        if targetKind = SnipKind.html ∨ targetKind = SnipKind.all then
          { st.editor.bufs with html := newVal }
        else if targetKind = SnipKind.css then { st.editor.bufs with css := newVal }
        else { st.editor.bufs with js := newVal }
      let ed1 := pushHistorySnapshot { st.editor with bufs := bufs1 } bufs1 false
      let rItem : Snip :=
        { id := some newId,
          label := (meta.map Snip.label).getD "Generated snippet",
          snippet := normalized,
          kind := (meta.map Snip.kind).getD targetKind,
          description := meta.bind Snip.description,
          tags := [] }
      { st with
        editor := ed1,
        activeTab := active1,
        recents := (rItem :: st.recents.filter fun r => r.snippet ≠ normalized).take 8,
        showSnippet := if keepOpen then st.showSnippet else false,
        query := "" }

/-- Claim C7 evaluation at the failing input: the active buffer is style
(text "ab", caret between the two letters), the script buffer holds "xyz",
and a snippet of kind script with body "S" is inserted.  The active tab DOES
switch to script and markup/style stay unchanged — but, because the script
textarea is not mounted while the style tab is active, the insertion falls
back to the style surface and the script buffer receives "aSb": the
snippet spliced into the STYLE text, destroying the previous script
content, instead of the splice into the script buffer itself that the claim
describes
(which, with no script selection known, would give "xyzS"). -/
theorem c7_insert_splices_wrong_buffer :
    (insertSnippet
        { editor := { undoStack := [⟨"", "ab", "xyz"⟩], redoStack := [],
                      bufs := ⟨"", "ab", "xyz"⟩ },
          activeTab := TabKey.css,
          surfHtml := none,
          surfCss := some ⟨"ab", some 1, some 1⟩,
          surfJs := none,
          recents := [], showSnippet := true, query := "" }
        "id1" "S" (some ⟨none, "lbl", "S", SnipKind.js, none, []⟩)
        false).activeTab = TabKey.js ∧
    (insertSnippet
        { editor := { undoStack := [⟨"", "ab", "xyz"⟩], redoStack := [],
                      bufs := ⟨"", "ab", "xyz"⟩ },
          activeTab := TabKey.css,
          surfHtml := none,
          surfCss := some ⟨"ab", some 1, some 1⟩,
          surfJs := none,
          recents := [], showSnippet := true, query := "" }
        "id1" "S" (some ⟨none, "lbl", "S", SnipKind.js, none, []⟩)
        false).editor.bufs = ⟨"", "ab", "aSb"⟩ ∧
    ("aSb" : String) ≠ "xyzS" := by
  refine ⟨?_, ?_, ?_⟩ <;> decide

end LiteLab
